import Mathlib

/-!
Verification of the multi-source caption fan-out/merge orchestrator and the
batch-processing loop of the Sketch-data-gen repository
(`pipeline.py`, `captioners.py`), as a shallow embedding in Lean 4.

Pure control flow is translated directly; effectful operations are made
explicit:
* each backend call (network / image decode) is modelled by its outcome, an
  `Except String String` value — `.ok text` when the underlying call returns
  `text`, `.error e` when it raises a Python exception rendered as `e`;
* `time.sleep` calls are counted, filesystem writes are logged as a list of
  created artifact paths, and Python's `str(int)` rendering is modelled by an
  executable decimal renderer `natToDec`.
-/

namespace SketchDataGen

/-! ## Decimal rendering: model of Python `str(i)` for a non-negative int

Implemented with explicit fuel (as Lean core's own `Nat.toDigits` is), so that
it is structurally recursive and kernel-computable.  `natToDec n` uses fuel
`n + 1`, which is always sufficient since `n < 10 ^ (n + 1)`. -/

def decDigitChar (n : Nat) : Char := Char.ofNat (48 + n)

def natToDecCore : Nat → Nat → List Char → List Char
  | 0, _, acc => acc
  | fuel + 1, n, acc =>
    if n < 10 then decDigitChar n :: acc
    else natToDecCore fuel (n / 10) (decDigitChar (n % 10) :: acc)

def natToDec (n : Nat) : String := ⟨natToDecCore (n + 1) n []⟩

/-- Parse a digit list back to the number it denotes (spec-side inverse). -/
def decValue (l : List Char) : Nat := l.foldl (fun a c => a * 10 + (c.toNat - 48)) 0

theorem decDigitChar_toNat {m : Nat} (h : m < 10) : (decDigitChar m).toNat = 48 + m := by
  interval_cases m <;> decide

theorem decDigitChar_range {m : Nat} (h : m < 10) :
    48 ≤ (decDigitChar m).toNat ∧ (decDigitChar m).toNat ≤ 57 := by
  interval_cases m <;> decide

theorem natToDecCore_acc (fuel : Nat) : ∀ (n : Nat) (acc : List Char),
    natToDecCore fuel n acc = natToDecCore fuel n [] ++ acc := by
  induction fuel with
  | zero => intro n acc; simp [natToDecCore]
  | succ fuel ih =>
    intro n acc
    by_cases h : n < 10
    · simp [natToDecCore, h]
    · simp only [natToDecCore, if_neg h]
      rw [ih (n / 10) (decDigitChar (n % 10) :: acc), ih (n / 10) [decDigitChar (n % 10)]]
      simp

theorem decValue_append_digit (l : List Char) (c : Char) :
    decValue (l ++ [c]) = decValue l * 10 + (c.toNat - 48) := by
  simp [decValue, List.foldl_append]

theorem decValue_natToDecCore (fuel : Nat) : ∀ n : Nat, n < 10 ^ fuel →
    decValue (natToDecCore fuel n []) = n := by
  induction fuel with
  | zero =>
    intro n hn
    have : n = 0 := by omega
    subst this
    simp [natToDecCore, decValue]
  | succ fuel ih =>
    intro n hn
    by_cases h : n < 10
    · simp [natToDecCore, h, decValue, decDigitChar_toNat h]
    · have hdiv : n / 10 < 10 ^ fuel := by
        rw [Nat.div_lt_iff_lt_mul (by norm_num)]
        calc n < 10 ^ (fuel + 1) := hn
        _ = 10 ^ fuel * 10 := by ring
      simp only [natToDecCore, if_neg h]
      rw [natToDecCore_acc, decValue_append_digit, ih (n / 10) hdiv,
        decDigitChar_toNat (Nat.mod_lt n (by norm_num))]
      omega

theorem natToDecCore_digits (fuel : Nat) : ∀ n : Nat, ∀ c ∈ natToDecCore fuel n [],
    48 ≤ c.toNat ∧ c.toNat ≤ 57 := by
  induction fuel with
  | zero => intro n c hc; simp [natToDecCore] at hc
  | succ fuel ih =>
    intro n c hc
    by_cases h : n < 10
    · simp [natToDecCore, h] at hc
      subst hc
      exact decDigitChar_range h
    · simp only [natToDecCore, if_neg h] at hc
      rw [natToDecCore_acc] at hc
      rcases List.mem_append.mp hc with h1 | h2
      · exact ih (n / 10) c h1
      · simp at h2
        subst h2
        exact decDigitChar_range (Nat.mod_lt n (by norm_num))

theorem natToDec_inj {a b : Nat} (h : natToDec a = natToDec b) : a = b := by
  have ha : a < 10 ^ (a + 1) :=
    lt_of_lt_of_le (Nat.lt_two_pow a) (by
      calc (2 : Nat) ^ a ≤ 10 ^ a := Nat.pow_le_pow_left (by norm_num) a
      _ ≤ 10 ^ (a + 1) := Nat.pow_le_pow_right (by norm_num) (Nat.le_succ a))
  have hb : b < 10 ^ (b + 1) :=
    lt_of_lt_of_le (Nat.lt_two_pow b) (by
      calc (2 : Nat) ^ b ≤ 10 ^ b := Nat.pow_le_pow_left (by norm_num) b
      _ ≤ 10 ^ (b + 1) := Nat.pow_le_pow_right (by norm_num) (Nat.le_succ b))
  have hdata : natToDecCore (a + 1) a [] = natToDecCore (b + 1) b [] :=
    congrArg String.data h
  have := decValue_natToDecCore (a + 1) a ha
  rw [hdata, decValue_natToDecCore (b + 1) b hb] at this
  omega

theorem natToDec_digits (n : Nat) : ∀ c ∈ (natToDec n).data, 48 ≤ c.toNat ∧ c.toNat ≤ 57 :=
  natToDecCore_digits (n + 1) n

/-! ## Source labels of the fan-out loop

`pipeline.py:94/100`: a successful invocation of captioner `i` (0-based) is
labelled `f"Model_{i+1}"`, a failing one `f"Model_{i+1}_Error"`. -/

def mkLabel (i : Nat) (err : Bool) : String :=
  "Model_" ++ natToDec (i + 1) ++ (if err then "_Error" else "")

theorem append_inj_of_digits_left {d₁ d₂ t₁ t₂ : List Char}
    (hd₁ : ∀ c ∈ d₁, 48 ≤ c.toNat ∧ c.toNat ≤ 57)
    (hd₂ : ∀ c ∈ d₂, 48 ≤ c.toNat ∧ c.toNat ≤ 57)
    (ht₁ : t₁ = [] ∨ ∃ r, t₁ = '_' :: r) (ht₂ : t₂ = [] ∨ ∃ r, t₂ = '_' :: r)
    (h : d₁ ++ t₁ = d₂ ++ t₂) : d₁ = d₂ ∧ t₁ = t₂ := by
  rcases List.append_eq_append_iff.mp h with ⟨a, ha, hta⟩ | ⟨a, ha, hta⟩
  · cases a with
    | nil => simp at ha hta; exact ⟨ha.symm, hta⟩
    | cons c r =>
      exfalso
      have hc : 48 ≤ c.toNat ∧ c.toNat ≤ 57 := hd₂ c (by rw [ha]; simp)
      rcases ht₁ with h0 | ⟨r', hr'⟩
      · rw [h0] at hta; simp at hta
      · rw [hr'] at hta
        have : c = '_' := by
          have := congrArg (fun l => l.head?) hta
          simpa using this.symm
        subst this
        revert hc; decide
  · cases a with
    | nil => simp at ha hta; exact ⟨ha, hta.symm⟩
    | cons c r =>
      exfalso
      have hc : 48 ≤ c.toNat ∧ c.toNat ≤ 57 := hd₁ c (by rw [ha]; simp)
      rcases ht₂ with h0 | ⟨r', hr'⟩
      · rw [h0] at hta; simp at hta
      · rw [hr'] at hta
        have : c = '_' := by
          have := congrArg (fun l => l.head?) hta
          simpa using this.symm
        subst this
        revert hc; decide

theorem mkLabel_inj {i j : Nat} {e₁ e₂ : Bool} (h : mkLabel i e₁ = mkLabel j e₂) :
    i = j ∧ e₁ = e₂ := by
  have hdata := congrArg String.data h
  simp only [mkLabel, String.data_append, List.append_assoc] at hdata
  have hcancel := List.append_cancel_left hdata
  have hmain := append_inj_of_digits_left
    (natToDec_digits (i + 1)) (natToDec_digits (j + 1))
    (by cases e₁ <;> simp) (by cases e₂ <;> simp) hcancel
  constructor
  · have : natToDec (i + 1) = natToDec (j + 1) := String.ext hmain.1
    have := natToDec_inj this
    omega
  · have := hmain.2
    cases e₁ <;> cases e₂ <;> simp_all

/-! ## Python `dict` built from a list of key/value pairs

`pipeline.py:114`: `dict(zip(caption_sources, captions))`.  A Python dict is
insertion-ordered; inserting an existing key overwrites the value in place.
We model it as an association list in insertion order. -/

def dictInsert (d : List (String × String)) (kv : String × String) : List (String × String) :=
  if d.any (fun p => p.1 == kv.1) then
    d.map (fun p => if p.1 == kv.1 then (p.1, kv.2) else p)
  else d ++ [kv]

def pythonDict (l : List (String × String)) : List (String × String) :=
  l.foldl dictInsert []

theorem dictInsert_of_not_mem {d : List (String × String)} {kv : String × String}
    (h : kv.1 ∉ d.map Prod.fst) : dictInsert d kv = d ++ [kv] := by
  have : d.any (fun p => p.1 == kv.1) = false := by
    rw [List.any_eq_false]
    intro p hp
    simp only [beq_iff_eq]
    intro hpk
    exact h (by rw [← hpk]; exact List.mem_map_of_mem Prod.fst hp)
  simp [dictInsert, this]

theorem pythonDict_aux (l : List (String × String)) : ∀ d : List (String × String),
    (d.map Prod.fst ++ l.map Prod.fst).Nodup → l.foldl dictInsert d = d ++ l := by
  induction l with
  | nil => intro d _; simp
  | cons kv rest ih =>
    intro d hnd
    have hk : kv.1 ∉ d.map Prod.fst := by
      intro hmem
      rcases List.nodup_append.mp hnd with ⟨_, _, hdisj⟩
      exact hdisj hmem (by simp)
    rw [List.foldl_cons, dictInsert_of_not_mem hk, ih (d ++ [kv]), List.append_assoc]
    · rfl
    · simp only [List.map_append]
      rw [List.append_assoc]
      simpa using hnd

theorem pythonDict_of_nodup {l : List (String × String)} (h : (l.map Prod.fst).Nodup) :
    pythonDict l = l := by
  have := pythonDict_aux l [] (by simpa using h)
  simpa [pythonDict] using this

/-! ## Captioner and merger boundaries (`captioners.py`)

Each `caption_image` / `merge_captions` body wraps its whole work (image
decode, prompt build, backend call) in `try/except` and returns either the
backend's text or a fixed sentinel string built from the exception.  The
underlying attempt is modelled by its outcome `Except String String`
(`.error e` = some step raised an exception rendered as `e`); the wrapper is a
total function into `String`, i.e. it never raises. -/

def googleCaptionImage (attempt : Except String String) : String :=
  match attempt with
  | .ok text => text
  | .error e => "Error generating Google caption: " ++ e

def openaiCaptionImage (attempt : Except String String) : String :=
  match attempt with
  | .ok text => text
  | .error e => "Error generating Google caption: " ++ e

def facebookCaptionImage (attempt : Except String String) : String :=
  match attempt with
  | .ok text => text
  | .error e => "Error generating Llama caption: " ++ e

def mergerMergeCaptions (attempt : Except String String) : String :=
  match attempt with
  | .ok text => text
  | .error e => "Error merging captions: " ++ e

/-- Spec-side predicate: the string begins with the recognizable marker
`"Error"`. -/
def beginsWithError (s : String) : Prop := ∃ rest, s = "Error" ++ rest

/-! ## `pathlib` name and stem (`Path(p).name`, `Path(p).stem`)

`name` is the final path component; `stem` strips the last dot-suffix when
that dot is neither the first nor the last character of the name. -/

def pathName (s : String) : String := ⟨(s.data.reverse.takeWhile (fun c => c ≠ '/')).reverse⟩

def stemOfName (nm : String) : String :=
  let l := nm.data
  match l.reverse.findIdx? (fun c => c == '.') with
  | none => nm
  | some j =>
    let i := l.length - 1 - j
    if 0 < i ∧ i < l.length - 1 then ⟨l.take i⟩ else nm

def pathStem (s : String) : String := stemOfName (pathName s)

/-! ## Single-image orchestration (`ImageCaptioningPipeline.process_single_image`)

The fan-out loop (`pipeline.py:90-100`): for each configured captioner `i`,
call `captioner.caption_image(path, user_caption)`.  The pipeline-level
behaviour of one such call is again an `Except String String`: `.ok c` means
the call returned string `c` (possibly itself a sentinel produced inside the
captioner), `.error e` means the call raised and the pipeline's `except`
branch ran.  On `.ok` the caption is recorded under label `Model_{i+1}` and
`time.sleep(1)` runs; on `.error` the text `Failed to generate caption: {e}`
is recorded under `Model_{i+1}_Error` and the sleep is skipped. -/

structure FanState where
  captions : List String
  sources : List String
  sleeps : Nat
  calls : List String

def fanOutFrom (ctx : String) : Nat → List (Except String String) → FanState
  | _, [] => ⟨[], [], 0, []⟩
  | i, b :: rest =>
    let s := fanOutFrom ctx (i + 1) rest
    match b with
    | .ok c =>
      ⟨c :: s.captions, mkLabel i false :: s.sources, s.sleeps + 1, ctx :: s.calls⟩
    | .error e =>
      ⟨("Failed to generate caption: " ++ e) :: s.captions, mkLabel i true :: s.sources,
        s.sleeps, ctx :: s.calls⟩

/-- Whether a pipeline-level captioner call returned without raising. -/
def callOk (b : Except String String) : Bool :=
  match b with
  | .ok _ => true
  | .error _ => false

structure ImgResult where
  image_path : String
  image_name : String
  individual_captions : List (String × String)
  user_caption : String
  merged_caption : String
  success : Bool

structure SIOutcome where
  result : ImgResult
  calls : List String
  interCallSleeps : Nat
  mergeCalls : Nat
  mergeInput : List String
  artifacts : List String

def processSingleImage (captioners : List (Except String String))
    (mergerCall : Except String String) (imagePathArg : String)
    (userCaption : String) (outputDir : Option String) : SIOutcome :=
  let imageName := pathStem imagePathArg
  let s := fanOutFrom userCaption 0 captioners
  let merged :=
    match mergerCall with
    | .ok t => t
    | .error e => "Failed to merge captions: " ++ e
  let result : ImgResult :=
    ⟨imagePathArg, imageName, pythonDict (s.sources.zip s.captions), userCaption, merged, true⟩
  let artifacts :=
    match outputDir with
    | some d => [d ++ "/captions", d ++ "/captions/" ++ imageName ++ ".txt"]
    | none => []
  ⟨result, s.calls, s.sleeps, 1, s.captions, artifacts⟩

/-! ## Fan-out loop lemmas -/

theorem fanOutFrom_captions_length (ctx : String) :
    ∀ (i : Nat) (bs : List (Except String String)),
    (fanOutFrom ctx i bs).captions.length = bs.length := by
  intro i bs
  induction bs generalizing i with
  | nil => rfl
  | cons b rest ih =>
    cases b <;> simp [fanOutFrom, ih]

theorem fanOutFrom_sources_length (ctx : String) :
    ∀ (i : Nat) (bs : List (Except String String)),
    (fanOutFrom ctx i bs).sources.length = bs.length := by
  intro i bs
  induction bs generalizing i with
  | nil => rfl
  | cons b rest ih =>
    cases b <;> simp [fanOutFrom, ih]

theorem fanOutFrom_calls (ctx : String) :
    ∀ (i : Nat) (bs : List (Except String String)),
    (fanOutFrom ctx i bs).calls = List.replicate bs.length ctx := by
  intro i bs
  induction bs generalizing i with
  | nil => rfl
  | cons b rest ih =>
    cases b <;> simp [fanOutFrom, ih, List.replicate_succ]

theorem fanOutFrom_sleeps (ctx : String) :
    ∀ (i : Nat) (bs : List (Except String String)),
    (fanOutFrom ctx i bs).sleeps = (bs.filter callOk).length := by
  intro i bs
  induction bs generalizing i with
  | nil => rfl
  | cons b rest ih =>
    cases b <;> simp [fanOutFrom, ih, callOk, List.filter]

theorem fanOutFrom_mem_sources (ctx : String) :
    ∀ (i : Nat) (bs : List (Except String String)),
    ∀ s ∈ (fanOutFrom ctx i bs).sources, ∃ j e, i ≤ j ∧ s = mkLabel j e := by
  intro i bs
  induction bs generalizing i with
  | nil => intro s hs; simp [fanOutFrom] at hs
  | cons b rest ih =>
    intro s hs
    cases b with
    | ok c =>
      simp only [fanOutFrom, List.mem_cons] at hs
      rcases hs with h | h
      · exact ⟨i, false, le_refl i, h⟩
      · obtain ⟨j, e, hj, he⟩ := ih (i + 1) s h
        exact ⟨j, e, by omega, he⟩
    | error e0 =>
      simp only [fanOutFrom, List.mem_cons] at hs
      rcases hs with h | h
      · exact ⟨i, true, le_refl i, h⟩
      · obtain ⟨j, e, hj, he⟩ := ih (i + 1) s h
        exact ⟨j, e, by omega, he⟩

theorem fanOutFrom_sources_nodup (ctx : String) :
    ∀ (i : Nat) (bs : List (Except String String)),
    (fanOutFrom ctx i bs).sources.Nodup := by
  intro i bs
  induction bs generalizing i with
  | nil => simp [fanOutFrom]
  | cons b rest ih =>
    have hhead : ∀ e : Bool, mkLabel i e ∉ (fanOutFrom ctx (i + 1) rest).sources := by
      intro e hmem
      obtain ⟨j, e', hj, he⟩ := fanOutFrom_mem_sources ctx (i + 1) rest _ hmem
      have := mkLabel_inj he
      omega
    cases b with
    | ok c =>
      simp only [fanOutFrom, List.nodup_cons]
      exact ⟨hhead false, ih (i + 1)⟩
    | error e0 =>
      simp only [fanOutFrom, List.nodup_cons]
      exact ⟨hhead true, ih (i + 1)⟩

/-! ## Image discovery and batch processing
(`ImageCaptioningPipeline.process_image_folder`, `pipeline.py:134-190`)

A folder on disk is abstracted by its relevant observable state: whether it
exists, whether it has an `images` subdirectory, and the file-name listings of
the folder itself and of `folder/images`.  `glob(f"*{ext}")` matches exactly
the listed names having `ext` as a suffix.  The literal extension set of
`pipeline.py:142` is kept in source order (Python iterates the set in an
unspecified order; no claim depends on the discovery order). -/

structure Folder where
  path : String
  doesExist : Bool
  hasImagesSubdir : Bool
  directListing : List String
  imagesListing : List String

def imageExtensions : List String :=
  [".jpg", ".jpeg", ".png", ".gif", ".bmp", ".webp", ".tiff"]

def strUpper (s : String) : String := ⟨s.data.map Char.toUpper⟩

def globMatches (listing : List String) (ext : String) : List String :=
  listing.filter (fun f => ext.data.isSuffixOf f.data)

def scanListing (fs : Folder) : List String :=
  if fs.hasImagesSubdir then fs.imagesListing else fs.directListing

def discoverImages (fs : Folder) : List String :=
  imageExtensions.flatMap
    (fun ext => globMatches (scanListing fs) ext ++ globMatches (scanListing fs) (strUpper ext))

/-- Spec-side matcher: the file name ends with an allow-listed extension in
its literal (lower-case) or all-upper-case form. -/
def matchesAllowList (f : String) : Bool :=
  imageExtensions.any
    (fun ext => ext.data.isSuffixOf f.data || (strUpper ext).data.isSuffixOf f.data)

/-- Exceptions raised by `process_image_folder`. -/
inductive BatchError where
  | fileNotFound (msg : String)
  | valueError (msg : String)
deriving DecidableEq

structure BatchSummary where
  total_images : Nat
  successful : Nat
  failed : Nat
  results : List ImgResult

/-- `_save_summary` (`pipeline.py:203-218`): the summary persisted at the end
of a batch run, recomputed from the in-memory result list. -/
def mkSummary (results : List ImgResult) : BatchSummary :=
  ⟨results.length, (results.filter (fun r => r.success)).length,
    (results.filter (fun r => !r.success)).length, results⟩

/-- Per-image context string (`pipeline.py:173-178`): start from `""`, use
the batch folder's name for policy `folder`, the image stem for `filename`,
and leave `""` for anything else. -/
def policyContext (ucs : String) (fs : Folder) (imageFull : String) : String :=
  if ucs == "folder" then pathName fs.path
  else if ucs == "filename" then pathStem imageFull
  else ""

def imageFullPath (fs : Folder) (f : String) : String :=
  (if fs.hasImagesSubdir then fs.path ++ "/images" else fs.path) ++ "/" ++ f

structure BatchAcc where
  results : List ImgResult
  artifacts : List String
  contexts : List String
  callLogs : List (List String)
  imageSleeps : Nat

def batchStep (fs : Folder) (cb : String → List (Except String String))
    (mb : String → Except String String) (outputDir : Option String) (ucs : String)
    (acc : BatchAcc) (f : String) : BatchAcc :=
  let full := imageFullPath fs f
  let ctx := policyContext ucs fs full
  let o := processSingleImage (cb f) (mb f) full ctx outputDir
  ⟨acc.results ++ [o.result], acc.artifacts ++ o.artifacts, acc.contexts ++ [ctx],
    acc.callLogs ++ [o.calls], acc.imageSleeps + 1⟩

structure BatchOutcome where
  error : Option BatchError
  results : List ImgResult
  artifacts : List String
  contexts : List String
  callLogs : List (List String)
  imageSleeps : Nat
  summary : Option BatchSummary

/-- `process_image_folder`: the captioner/merger behaviours are given per
image file name (`cb f` lists the pipeline-level outcomes of the configured
captioners on image `f`). -/
def processImageFolder (fs : Folder) (cb : String → List (Except String String))
    (mb : String → Except String String) (outputDir : Option String) (ucs : String) :
    BatchOutcome :=
  if !fs.doesExist then
    ⟨some (.fileNotFound ("Folder not found: " ++ fs.path)), [], [], [], [], 0, none⟩
  else
    let files := discoverImages fs
    if files.isEmpty then
      ⟨some (.valueError ("No image files found in " ++ fs.path)), [], [], [], [], 0, none⟩
    else
      let preArt := match outputDir with
        | some d => [d ++ "/captions"]
        | none => []
      let fin := files.foldl (batchStep fs cb mb outputDir ucs) ⟨[], preArt, [], [], 0⟩
      let art := match outputDir with
        | some d => fin.artifacts ++ [d ++ "/captioning_summary.json"]
        | none => fin.artifacts
      let summ := match outputDir with
        | some _ => some (mkSummary fin.results)
        | none => none
      ⟨none, fin.results, art, fin.contexts, fin.callLogs, fin.imageSleeps, summ⟩

/-- `main` (`pipeline.py:451-454`): for a directory input the CLI remaps the
`manual` context-source selection to `folder` before calling
`process_image_folder`. -/
def mainFolderCaptionSource (cs : String) : String :=
  if cs == "manual" then "folder" else cs

/-! ## Rate-limiting delays -/

/-- `time.sleep(1)` after each successful captioner call (`pipeline.py:96`). -/
def interCallDelaySeconds : ℚ := 1

/-- `time.sleep(0.5)` after each image of a batch (`pipeline.py:184`). -/
def interImageDelaySeconds : ℚ := 1 / 2

/-! ## Model initialization (`ImageCaptioningPipeline._initialize_models`,
`pipeline.py:34-76`)

The config dict produced by `load_config` always carries every key; an API
key's value is a string or Python `None`, modelled as `Option String`.
`if self.config.get(k):` is Python truthiness: `None` and `""` are falsy. -/

structure Config where
  openai_api_key : Option String
  groq_api_key : Option String
  gemini_api_key : Option String
  caption_model_2 : Option String
  caption_model_3 : Option String
  merge_model : Option String

def truthy : Option String → Bool
  | none => false
  | some s => !(s == "")

structure CaptionerInst where
  kind : String
  apiKey : Option String
  model : String

structure MergerInst where
  apiKey : Option String
  model : String

def initializeModels (c : Config) : Except String (List CaptionerInst × MergerInst) :=
  let caps :=
    (if truthy c.openai_api_key then
      [CaptionerInst.mk "OpenAICaptioner" c.gemini_api_key
        (c.caption_model_3.getD "gemini-2.5-flash")]
    else [])
    ++ (if truthy c.groq_api_key then
      [CaptionerInst.mk "FacebookCaptioner" c.groq_api_key
        (c.caption_model_2.getD "llama-3.1-8b-instant")]
    else [])
    ++ (if truthy c.gemini_api_key then
      [CaptionerInst.mk "GoogleCaptioner" c.gemini_api_key
        (c.caption_model_3.getD "gemini-2.5-flash")]
    else [])
  let merger :=
    if truthy c.gemini_api_key then
      some (MergerInst.mk c.gemini_api_key (c.merge_model.getD "gemini-2.5-flash"))
    else none
  if caps.isEmpty then
    .error "Failed to initialize models: No valid API keys provided. Please check your configuration."
  else
    match merger with
    | none =>
      .error "Failed to initialize models: No valid API key for caption merging. OpenAI API key is required for merging."
    | some m => .ok (caps, m)

/-! ## Batch-loop lemmas -/

/-- The single-image outcome produced for file `f` inside the batch loop. -/
def perImageOutcome (fs : Folder) (cb : String → List (Except String String))
    (mb : String → Except String String) (od : Option String) (ucs : String)
    (f : String) : SIOutcome :=
  processSingleImage (cb f) (mb f) (imageFullPath fs f)
    (policyContext ucs fs (imageFullPath fs f)) od

theorem batchFoldl_spec (fs : Folder) (cb : String → List (Except String String))
    (mb : String → Except String String) (od : Option String) (ucs : String)
    (files : List String) : ∀ acc : BatchAcc,
    files.foldl (batchStep fs cb mb od ucs) acc =
      ⟨acc.results ++ files.map (fun f => (perImageOutcome fs cb mb od ucs f).result),
       acc.artifacts ++ files.flatMap (fun f => (perImageOutcome fs cb mb od ucs f).artifacts),
       acc.contexts ++ files.map (fun f => policyContext ucs fs (imageFullPath fs f)),
       acc.callLogs ++ files.map (fun f => (perImageOutcome fs cb mb od ucs f).calls),
       acc.imageSleeps + files.length⟩ := by
  induction files with
  | nil => intro acc; simp
  | cons f rest ih =>
    intro acc
    rw [List.foldl_cons, ih]
    simp [batchStep, perImageOutcome, List.append_assoc]
    omega

theorem length_filter_success (l : List ImgResult) :
    (l.filter (fun r => r.success)).length + (l.filter (fun r => !r.success)).length
      = l.length := by
  induction l with
  | nil => rfl
  | cons r rest ih => cases hr : r.success <;> simp [List.filter, hr] <;> omega

/-! ## Claim theorems -/

/-- C1: for every image processed (with the configured captioner list fixed),
the returned result's `individual_captions` mapping contains exactly one
entry per configured captioner — its keys are the fan-out labels in fan-out
order, pairwise distinct, and their number equals the number of configured
captioners — regardless of how many captioner calls fail. -/
theorem C1_individual_captions_one_entry_per_captioner
    (captioners : List (Except String String)) (mergerCall : Except String String)
    (p ctx : String) (od : Option String) :
    (processSingleImage captioners mergerCall p ctx od).result.individual_captions.length
      = captioners.length ∧
    (processSingleImage captioners mergerCall p ctx od).result.individual_captions.map Prod.fst
      = (fanOutFrom ctx 0 captioners).sources ∧
    ((processSingleImage captioners mergerCall p ctx od).result.individual_captions.map
      Prod.fst).Nodup := by
  have hlen : (fanOutFrom ctx 0 captioners).sources.length
      = (fanOutFrom ctx 0 captioners).captions.length := by
    rw [fanOutFrom_sources_length, fanOutFrom_captions_length]
  have hfst : ((fanOutFrom ctx 0 captioners).sources.zip
      (fanOutFrom ctx 0 captioners).captions).map Prod.fst
      = (fanOutFrom ctx 0 captioners).sources :=
    List.map_fst_zip _ _ (le_of_eq hlen)
  have hnodup := fanOutFrom_sources_nodup ctx 0 captioners
  have hdict : pythonDict ((fanOutFrom ctx 0 captioners).sources.zip
      (fanOutFrom ctx 0 captioners).captions)
      = (fanOutFrom ctx 0 captioners).sources.zip (fanOutFrom ctx 0 captioners).captions :=
    pythonDict_of_nodup (by rw [hfst]; exact hnodup)
  refine ⟨?_, ?_, ?_⟩
  · simp only [processSingleImage, hdict]
    rw [List.length_zip, hlen, min_self, fanOutFrom_captions_length]
  · simp only [processSingleImage, hdict]
    exact hfst
  · simp only [processSingleImage, hdict]
    rw [hfst]
    exact hnodup

/-- C2: for every image whose fan-out completes without an orchestration-level
exception (in the embedding the orchestration body never raises), the merger
is invoked exactly once and receives the full ordered list of per-source
caption strings — one per configured captioner — even when every one of them
is an error sentinel; the merge step is never skipped. -/
theorem C2_merge_invoked_exactly_once
    (captioners : List (Except String String)) (mergerCall : Except String String)
    (p ctx : String) (od : Option String) :
    (processSingleImage captioners mergerCall p ctx od).mergeCalls = 1 ∧
    (processSingleImage captioners mergerCall p ctx od).mergeInput
      = (fanOutFrom ctx 0 captioners).captions ∧
    (processSingleImage captioners mergerCall p ctx od).mergeInput.length
      = captioners.length := by
  refine ⟨rfl, rfl, ?_⟩
  simp only [processSingleImage]
  exact fanOutFrom_captions_length ctx 0 captioners

/-- C3: every captioner's `caption_image` and the merger's `merge_captions`
are total functions into `String` (they never propagate an exception past
their boundary): on a successful backend attempt they return its text, and on
any underlying error they return a sentinel error-text string beginning with
the recognizable marker `"Error"`. -/
theorem C3_fault_containment (e t : String) :
    googleCaptionImage (Except.ok t) = t
      ∧ beginsWithError (googleCaptionImage (Except.error e)) ∧
    openaiCaptionImage (Except.ok t) = t
      ∧ beginsWithError (openaiCaptionImage (Except.error e)) ∧
    facebookCaptionImage (Except.ok t) = t
      ∧ beginsWithError (facebookCaptionImage (Except.error e)) ∧
    mergerMergeCaptions (Except.ok t) = t
      ∧ beginsWithError (mergerMergeCaptions (Except.error e)) := by
  refine ⟨rfl, ⟨" generating Google caption: " ++ e, ?_⟩, rfl,
    ⟨" generating Google caption: " ++ e, ?_⟩, rfl, ⟨" generating Llama caption: " ++ e, ?_⟩,
    rfl, ⟨" merging captions: " ++ e, ?_⟩⟩ <;>
  · rw [← String.append_assoc]
    rfl

/-- C4: for every batch run, whenever a summary is persisted it satisfies
`successful + failed = total_images` and `total_images = len(results)`, where
`successful` counts results whose success flag is set and `failed` counts the
rest. -/
theorem C4_summary_counts (fs : Folder) (cb : String → List (Except String String))
    (mb : String → Except String String) (od : Option String) (ucs : String)
    (s : BatchSummary) (h : (processImageFolder fs cb mb od ucs).summary = some s) :
    s.successful + s.failed = s.total_images ∧ s.total_images = s.results.length := by
  have hs : ∃ results, s = mkSummary results := by
    by_cases he : fs.doesExist
    · by_cases hemp : (discoverImages fs).isEmpty
      · simp [processImageFolder, he, hemp] at h
      · cases od with
        | none => simp [processImageFolder, he, hemp] at h
        | some d =>
          simp only [processImageFolder, he, hemp, Bool.not_true, Bool.false_eq_true,
            if_false, Option.some.injEq] at h
          exact ⟨_, h.symm⟩
    · simp [processImageFolder, he] at h
  obtain ⟨results, hres⟩ := hs
  subst hres
  exact ⟨length_filter_success results, rfl⟩

/-- C4 witness: a concrete one-image batch run with an output directory
persists a summary, and that summary satisfies the counting invariant. -/
theorem C4_summary_counts_witness :
    (mkSummary [ImgResult.mk "d/a.jpg" "a" [] "d" "m" true]).successful
        + (mkSummary [ImgResult.mk "d/a.jpg" "a" [] "d" "m" true]).failed
      = (mkSummary [ImgResult.mk "d/a.jpg" "a" [] "d" "m" true]).total_images ∧
    (mkSummary [ImgResult.mk "d/a.jpg" "a" [] "d" "m" true]).total_images
      = (mkSummary [ImgResult.mk "d/a.jpg" "a" [] "d" "m" true]).results.length :=
  C4_summary_counts (Folder.mk "d" true false ["a.jpg"] []) (fun _ => [])
    (fun _ => Except.ok "m") (some "out") "folder" _ rfl

/-- C5 (amended): in a batch run the context string passed to every captioner
for an image is: for policy `folder` the batch folder argument's name (which
is the image's parent folder when the folder is scanned directly, and the
grandparent when the `images` subdirectory is used); for policy `filename`
the image's stem; and for `manual` or any other value the empty string — the
caller-supplied literal is honoured only in single-image mode, and the CLI
remaps `manual` to `folder` for directory inputs. -/
theorem C5_context_policy_amended (fs : Folder)
    (cb : String → List (Except String String)) (mb : String → Except String String)
    (od : Option String) (ucs : String)
    (h : (processImageFolder fs cb mb od ucs).error = none) :
    (processImageFolder fs cb mb od ucs).contexts
      = (discoverImages fs).map (fun f => policyContext ucs fs (imageFullPath fs f)) ∧
    (processImageFolder fs cb mb od ucs).callLogs
      = (discoverImages fs).map (fun f =>
          List.replicate (cb f).length (policyContext ucs fs (imageFullPath fs f))) ∧
    mainFolderCaptionSource "manual" = "folder" := by
  by_cases he : fs.doesExist
  · by_cases hemp : (discoverImages fs).isEmpty
    · simp [processImageFolder, he, hemp] at h
    · refine ⟨?_, ?_, rfl⟩ <;>
        simp [processImageFolder, he, hemp, batchFoldl_spec, perImageOutcome,
          processSingleImage, fanOutFrom_calls]
  · simp [processImageFolder, he] at h

/-- C5 witness: a concrete batch over `ds/cat.jpg` with policy `filename`
passes exactly the stem `"cat"` as context, and with a single configured
captioner that captioner receives `"cat"`. -/
theorem C5_context_policy_witness :
    (processImageFolder (Folder.mk "ds" true false ["cat.jpg"] [])
        (fun _ => [Except.ok "a cat"]) (fun _ => Except.ok "m") none "filename").contexts
      = ["cat"] ∧
    (processImageFolder (Folder.mk "ds" true false ["cat.jpg"] [])
        (fun _ => [Except.ok "a cat"]) (fun _ => Except.ok "m") none "filename").callLogs
      = [["cat"]] := by
  have h := C5_context_policy_amended (Folder.mk "ds" true false ["cat.jpg"] [])
    (fun _ => [Except.ok "a cat"]) (fun _ => Except.ok "m") none "filename" (by decide)
  refine ⟨?_, ?_⟩
  · rw [h.1]; decide
  · rw [h.2.1]; decide

/-- C5 counterexample: with context policy `manual` a batch run passes the
empty string as context — not the caller-supplied literal (e.g. `"hello"`),
which `process_image_folder` does not even receive. -/
theorem C5_context_policy_counterexample :
    (processImageFolder (Folder.mk "ds" true false ["cat.jpg"] [])
        (fun _ => [Except.ok "a cat"]) (fun _ => Except.ok "m") none "manual").contexts
      = [""] ∧
    ([""] : List String) ≠ ["hello"] := by
  constructor
  · decide
  · decide

/-- C6: batch processing of a folder that does not exist yields the
`FileNotFoundError` "not found" error, and of an existing folder with zero
matching image files yields the `ValueError` "empty" error; in both cases no
output artifact (captions directory, caption file, or summary file) is
created and no results are produced. -/
theorem C6_batch_error_cases (fs : Folder) (cb : String → List (Except String String))
    (mb : String → Except String String) (od : Option String) (ucs : String) :
    (fs.doesExist = false →
      (processImageFolder fs cb mb od ucs).error
          = some (BatchError.fileNotFound ("Folder not found: " ++ fs.path)) ∧
      (processImageFolder fs cb mb od ucs).artifacts = [] ∧
      (processImageFolder fs cb mb od ucs).results = [] ∧
      (processImageFolder fs cb mb od ucs).summary = none) ∧
    (fs.doesExist = true → discoverImages fs = [] →
      (processImageFolder fs cb mb od ucs).error
          = some (BatchError.valueError ("No image files found in " ++ fs.path)) ∧
      (processImageFolder fs cb mb od ucs).artifacts = [] ∧
      (processImageFolder fs cb mb od ucs).results = [] ∧
      (processImageFolder fs cb mb od ucs).summary = none) := by
  constructor
  · intro he
    simp [processImageFolder, he]
  · intro he hemp
    simp [processImageFolder, he, hemp]

/-- C6 witness: a concrete missing folder and a concrete folder holding only
`notes.txt` both error out with no artifacts. -/
theorem C6_batch_error_cases_witness :
    (processImageFolder (Folder.mk "missing" false false [] []) (fun _ => [])
        (fun _ => Except.ok "m") (some "out") "folder").artifacts = [] ∧
    (processImageFolder (Folder.mk "mt" true false ["notes.txt"] []) (fun _ => [])
        (fun _ => Except.ok "m") (some "out") "folder").artifacts = [] := by
  constructor
  · exact ((C6_batch_error_cases (Folder.mk "missing" false false [] []) (fun _ => [])
      (fun _ => Except.ok "m") (some "out") "folder").1 rfl).2.1
  · exact ((C6_batch_error_cases (Folder.mk "mt" true false ["notes.txt"] []) (fun _ => [])
      (fun _ => Except.ok "m") (some "out") "folder").2 rfl (by decide)).2.1

/-- C7: a file name is discovered exactly when it lies in the scanned listing
— `folder_path/images` whenever that subdirectory exists (files directly
under `folder_path` are then ignored), otherwise `folder_path` itself — and
it ends with an allow-listed extension (jpg, jpeg, png, gif, bmp, webp,
tiff) in all-lower-case or all-upper-case form. -/
theorem C7_discovery_membership (fs : Folder) (f : String) :
    f ∈ discoverImages fs ↔
      (f ∈ (if fs.hasImagesSubdir then fs.imagesListing else fs.directListing) ∧
        matchesAllowList f = true) := by
  simp only [discoverImages, globMatches, scanListing, matchesAllowList, List.mem_flatMap,
    List.mem_append, List.mem_filter, List.any_eq_true, Bool.or_eq_true]
  constructor
  · rintro ⟨ext, hext, ⟨hf, hsuf⟩ | ⟨hf, hsuf⟩⟩
    · exact ⟨hf, ext, hext, Or.inl hsuf⟩
    · exact ⟨hf, ext, hext, Or.inr hsuf⟩
  · rintro ⟨hf, ext, hext, hsuf | hsuf⟩
    · exact ⟨ext, hext, Or.inl ⟨hf, hsuf⟩⟩
    · exact ⟨ext, hext, Or.inr ⟨hf, hsuf⟩⟩

/-- C8 (amended): the fixed inter-image delay applied after each image of a
batch (`time.sleep(0.5)`) is a smaller pause than the fixed intra-image delay
applied per captioner call in single-image processing (`time.sleep(1)`). -/
theorem C8_inter_image_delay_smaller :
    interImageDelaySeconds < interCallDelaySeconds := by
  norm_num [interImageDelaySeconds, interCallDelaySeconds]

/-- C8 counterexample: the inter-image delay is not a larger pause than the
per-captioner-call delay, refuting the claim as stated. -/
theorem C8_counterexample :
    ¬ interCallDelaySeconds < interImageDelaySeconds := by
  norm_num [interImageDelaySeconds, interCallDelaySeconds]

/-- C9 (amended): during single-image fan-out each configured captioner is
invoked exactly once — no failed captioner is retried within the run — and
the fixed inter-call delay runs after exactly those invocations that return
without raising (which, under the captioners' own never-raise contract,
includes invocations whose backend failed and that returned a sentinel); an
invocation that raises into the pipeline's handler gets no delay. -/
theorem C9_delay_after_each_ok_invocation
    (captioners : List (Except String String)) (mergerCall : Except String String)
    (p ctx : String) (od : Option String) :
    (processSingleImage captioners mergerCall p ctx od).interCallSleeps
      = (captioners.filter callOk).length ∧
    (processSingleImage captioners mergerCall p ctx od).calls
      = List.replicate captioners.length ctx := by
  constructor
  · simp only [processSingleImage]
    exact fanOutFrom_sleeps ctx 0 captioners
  · simp only [processSingleImage]
    exact fanOutFrom_calls ctx 0 captioners

/-- C9 counterexample: one configured captioner whose invocation fails
(raises): the captioner is invoked, yet zero inter-call delays are applied —
the delay is not applied after a failing invocation. -/
theorem C9_counterexample :
    (processSingleImage [Except.error "boom"] (Except.ok "m") "img.jpg" "" none).calls.length
      = 1 ∧
    (processSingleImage [Except.error "boom"] (Except.ok "m") "img.jpg" "" none).interCallSleeps
      = 0 := by
  constructor
  · rfl
  · rfl

/-- C10: whenever the configuration contains a (truthy) `openai_api_key`,
initialization constructs the first, OpenAI-gated captioner with the value of
the configuration's `gemini_api_key` field; every constructed captioner and
the merger hold either the gemini or the groq key, so when the OpenAI key
differs from those two values no instance ever receives the OpenAI API key as
its credential. -/
theorem C10_openai_captioner_gets_gemini_key (c : Config) (caps : List CaptionerInst)
    (m : MergerInst) (hope : truthy c.openai_api_key = true)
    (hinit : initializeModels c = Except.ok (caps, m)) :
    (∃ mdl rest, caps = CaptionerInst.mk "OpenAICaptioner" c.gemini_api_key mdl :: rest) ∧
    (∀ cap ∈ caps, cap.apiKey = c.gemini_api_key ∨ cap.apiKey = c.groq_api_key) ∧
    m.apiKey = c.gemini_api_key ∧
    (c.openai_api_key ≠ c.gemini_api_key → c.openai_api_key ≠ c.groq_api_key →
      (∀ cap ∈ caps, cap.apiKey ≠ c.openai_api_key) ∧ m.apiKey ≠ c.openai_api_key) := by
  by_cases hgem : truthy c.gemini_api_key
  · by_cases hgroq : truthy c.groq_api_key <;>
    · simp only [initializeModels, hope, hgem, hgroq, if_true, if_false,
        List.nil_append, List.append_nil, List.cons_append, List.isEmpty_cons,
        Bool.false_eq_true, if_false, Except.ok.injEq, Prod.mk.injEq] at hinit
      obtain ⟨hcaps, hm⟩ := hinit
      subst hcaps
      subst hm
      refine ⟨⟨_, _, rfl⟩, ?_, rfl, ?_⟩
      · intro cap hcap
        simp only [List.mem_cons, List.not_mem_nil, or_false] at hcap
        first
        | (rcases hcap with h | h | h <;> subst h <;> simp)
        | (rcases hcap with h | h <;> subst h <;> simp)
      · intro h1 h2
        refine ⟨?_, fun hk => h1 hk.symm⟩
        intro cap hcap
        simp only [List.mem_cons, List.not_mem_nil, or_false] at hcap
        first
        | (rcases hcap with h | h | h <;> subst h <;> simp <;> intro hk <;>
            first | exact h1 hk.symm | exact h2 hk.symm)
        | (rcases hcap with h | h <;> subst h <;> simp <;> intro hk <;> exact h1 hk.symm)
  · exfalso
    by_cases hgroq : truthy c.groq_api_key <;>
      simp [initializeModels, hope, hgem, hgroq] at hinit

/-- C10 witness: with all three keys configured and pairwise distinct, the
constructed merger holds the gemini key and the first (OpenAI-gated)
captioner does not hold the OpenAI key. -/
theorem C10_openai_captioner_gets_gemini_key_witness :
    (MergerInst.mk (some "gem-key") "gemini-2.5-flash").apiKey = some "gem-key" ∧
    (CaptionerInst.mk "OpenAICaptioner" (some "gem-key") "gemini-2.5-flash").apiKey
      ≠ some "oai-key" := by
  have h := C10_openai_captioner_gets_gemini_key
    (Config.mk (some "oai-key") (some "groq-key") (some "gem-key") none none none)
    [CaptionerInst.mk "OpenAICaptioner" (some "gem-key") "gemini-2.5-flash",
     CaptionerInst.mk "FacebookCaptioner" (some "groq-key") "llama-3.1-8b-instant",
     CaptionerInst.mk "GoogleCaptioner" (some "gem-key") "gemini-2.5-flash"]
    (MergerInst.mk (some "gem-key") "gemini-2.5-flash") rfl rfl
  refine ⟨h.2.2.1, ?_⟩
  exact (h.2.2.2 (by decide) (by decide)).1 _ (List.mem_cons_self _ _)

end SketchDataGen
